import Mathlib

/-!
Verification of the prompt-queue delivery engine: a shallow embedding of the
queue store (QueueStore.ts), the queue processor (QueueProcessor.ts, the
terminal-injection variant that returns a count), and the pure time utility
library (util/time.ts) with its cascading rate-limit message parser.

Modelling conventions:
  - JS strings are embedded as List Char; machine timestamps (Date.getTime)
    as ℤ milliseconds since the epoch; JS numbers in the parser as ℚ.
  - The local-time operations of Date (setHours, setDate) are modelled in a
    fixed-offset civil calendar with 86400000 ms days (no DST), so a calendar
    day is exactly one day of milliseconds.
  - The regular-expression matchers of the parser are embedded as explicit
    backtracking matchers in continuation-passing style; each one transcribes
    one regex literal of the source, with ordered alternation, greedy
    quantifiers with give-back, and leftmost-first scanning, matching the
    semantics of JavaScript String.prototype.match with a non-global regex.
  - The impure Date.now() of the source is a parameter now : ℤ; delivery and
    its possible thrown errors are a parameter outcome : QueueItem → Bool
    (true: the delivery succeeded, false: it threw and was caught).
-/

namespace PromptQueue

/-! ## Character classes (JS regex classes, ASCII fragment) -/

/-- Lower-case an ASCII letter; models the case-insensitive flag i. -/
def lcChar (c : Char) : Char :=
  if 'A' ≤ c ∧ c ≤ 'Z' then Char.ofNat (c.toNat + 32) else c

/-- JS \s, ASCII fragment: space, tab, newline, carriage return, vertical tab, form feed. -/
def isWS (c : Char) : Bool :=
  c == ' ' || c == '\t' || c == '\n' || c == '\r' || c == '\x0b' || c == '\x0c'

/-- JS \d. -/
def isDigit (c : Char) : Bool := decide ('0' ≤ c ∧ c ≤ '9')

/-- JS \w (word character), used by the word boundary \b. -/
def isWordChar (c : Char) : Bool := c.isAlpha || isDigit c || c == '_'

/-! ## Backtracking matcher combinators (continuation-passing style) -/

/-- A matcher consumes a prefix of the input and passes the rest to a
continuation; failure propagates as none, so ordered alternation and greedy
quantifiers backtrack exactly as a JS regex engine does. -/
def Mch (α : Type) : Type := List Char → (List Char → Option α) → Option α

variable {α : Type}

/-- Match one character satisfying p. -/
def chP (p : Char → Bool) : Mch α := fun s k =>
  match s with
  | [] => none
  | c :: rest => if p c then k rest else none

/-- Match a literal character sequence, case-insensitively. -/
def litCI : List Char → Mch α
  | [] => fun s k => k s
  | c :: cs => fun s k => chP (fun d => lcChar d == lcChar c) s (fun s1 => litCI cs s1 k)

/-- Match a literal string, case-insensitively. -/
def litS (t : String) : Mch α := litCI t.toList

/-- Greedy star over a character class, with give-back on continuation failure. -/
def starP (p : Char → Bool) : Mch α := fun s k =>
  match s with
  | [] => k []
  | c :: rest => if p c then (starP p rest k <|> k (c :: rest)) else k (c :: rest)

/-- Greedy plus over a character class. -/
def plusP (p : Char → Bool) : Mch α := fun s k => chP p s (fun s1 => starP p s1 k)

/-- Ordered alternation a|b. -/
def altM (m1 m2 : Mch α) : Mch α := fun s k => m1 s k <|> m2 s k

/-- Greedy optional group x?. -/
def optM (m : Mch α) : Mch α := fun s k => m s k <|> k s

/-- Sequencing. -/
def seqM (m1 m2 : Mch α) : Mch α := fun s k => m1 s (fun s1 => m2 s1 k)

/-- The characters a matcher consumed between position s and position s1
(s1 is always a suffix of s); used for capture groups and match[0]. -/
def takenFrom (s s1 : List Char) : List Char := s.take (s.length - s1.length)

/-- Leftmost-first scan: try the matcher at every position, earliest wins;
prev carries the previous character for word-boundary tests. -/
def scan (m : Option Char → List Char → Option β) : Option Char → List Char → Option β
  | prev, [] => m prev []
  | prev, c :: rest => m prev (c :: rest) <|> scan m (some c) rest

/-- Leftmost-first scan for matchers that ignore the word boundary. -/
def findFirst (m : List Char → Option β) (text : List Char) : Option β :=
  scan (fun _ s => m s) none text

/-! ## Queue store (QueueStore.ts) -/

/-- QueueItem of QueueStore.ts; the ISO-8601 timestamp strings are embedded
as the instants they denote (ℤ ms since the epoch). -/
structure QueueItem where
  id : String
  createdAt : ℤ
  notBefore : ℤ
  promptText : String
  workspaceFolder : String
  processed : Bool
deriving DecidableEq, Repr

/-- The persisted ordered collection behind vscode.Memento. -/
abbrev StoreState := List QueueItem

/-- QueueStore.getAll: all items in insertion order. -/
def getAll (s : StoreState) : List QueueItem := s

/-- QueueStore.getPending: getAll().filter(i => !i.processed). -/
def getPending (s : StoreState) : List QueueItem :=
  (getAll s).filter (fun i => !i.processed)

/-- QueueStore.add: items.push(item). -/
def addItem (s : StoreState) (item : QueueItem) : StoreState := s ++ [item]

/-- QueueStore.markProcessed: items.map(i => i.id === id ? {...i, processed: true} : i). -/
def markProcessed (s : StoreState) (id : String) : StoreState :=
  s.map (fun i => if i.id == id then { i with processed := true } else i)

/-- QueueStore.remove: items.filter(i => i.id !== id). -/
def removeItem (s : StoreState) (id : String) : StoreState :=
  s.filter (fun i => !(i.id == id))

/-- QueueStore.purgeProcessed: items.filter(i => !i.processed). -/
def purgeProcessed (s : StoreState) : StoreState :=
  s.filter (fun i => !i.processed)

/-! ## Overdue check (util/time.ts) -/

/-- isOverdue(notBefore, now): notBefore.getTime() <= now.getTime(). -/
def isOverdue (notBefore now : ℤ) : Bool := decide (notBefore ≤ now)

/-! ## Queue processor (QueueProcessor.ts, count-returning variant) -/

/-- The due subset computed by one tick: getPending() filtered by isOverdue,
in store order. -/
def dueItems (s : StoreState) (now : ℤ) : List QueueItem :=
  (getPending s).filter (fun i => isOverdue i.notBefore now)

/-- One guarded delivery attempt of the loop body: on success deliver removes
the item from the store (store.remove(item.id)); a thrown error is caught and
leaves the store unchanged. -/
def deliverStep (outcome : QueueItem → Bool) (st : StoreState) (item : QueueItem) : StoreState :=
  if outcome item then removeItem st item.id else st

/-- Result of one process() tick: the final store, the items whose delivery
was attempted (in attempt order), and the returned number. -/
structure TickResult where
  store : StoreState
  attempted : List QueueItem
  returned : ℕ
deriving DecidableEq, Repr

/-- QueueProcessor.process: compute the due subset; if empty return 0;
otherwise attempt delivery of each due item in order inside try/catch and
return due.length. -/
def process (s : StoreState) (now : ℤ) (outcome : QueueItem → Bool) : TickResult :=
  let due := dueItems s now
  if due.length = 0 then { store := s, attempted := [], returned := 0 }
  else
    let run := due.foldl (fun acc item => (deliverStep outcome acc.1 item, acc.2 ++ [item])) (s, [])
    { store := run.1, attempted := run.2, returned := due.length }

/-- The number of due items whose delivery actually succeeded in a tick
(what the spec says process() returns). -/
def succeededCount (s : StoreState) (now : ℤ) (outcome : QueueItem → Bool) : ℕ :=
  ((dueItems s now).filter outcome).length

/-- QueueProcessor.forceDeliver: find one pending item by id
(getAll().find(i => i.id === id && !i.processed)); if none, return without
attempting delivery; otherwise attempt delivery of exactly that item.
The second component records the attempted item, if any. -/
def forceDeliver (s : StoreState) (id : String) (outcome : QueueItem → Bool) :
    StoreState × Option QueueItem :=
  match s.find? (fun i => i.id == id && !i.processed) with
  | none => (s, none)
  | some item => (deliverStep outcome s item, some item)

/-! ## The seven regex matchers of parseRateLimitMessage (util/time.ts)

Each definition below transcribes one regex literal of the source; the i flag
is rendered by the case-insensitive primitives, captures by takenFrom. -/

/-- Subpattern \d{2}. -/
def d2 : Mch α := seqM (chP isDigit) (chP isDigit)

/-- Subpattern \d{1,2} (greedy: two digits preferred). -/
def d12 : Mch α := altM d2 (chP isDigit)

/-- Subpattern (?:reset(?:s)?|available|try\s+again|retry), in source order. -/
def resetKeyword : Mch α :=
  altM (seqM (litS "reset") (optM (litS "s")))
    (altM (litS "available")
      (altM (seqM (litS "try") (seqM (plusP isWS) (litS "again")))
        (litS "retry")))

/-- Shared clock tail (\d{1,2}):(\d{2})(?::(\d{2}))?\s*(am|pm)? of regexes 1
and 2; s0 is where the whole match started (for match[0]); yields
(hour capture, minute capture, am-pm capture, whole match). -/
def clockAt (s0 s : List Char) : Option (List Char × List Char × Option (List Char) × List Char) :=
  d12 s (fun s5 =>
    chP (· == ':') s5 (fun s6 =>
      d2 s6 (fun s7 =>
        optM (seqM (chP (· == ':')) d2) s7 (fun s8 =>
          starP isWS s8 (fun s9 =>
            (altM (litS "am") (litS "pm")) s9 (fun s10 =>
                some (takenFrom s s5, takenFrom s6 s7, some (takenFrom s9 s10), takenFrom s0 s10))
              <|> some (takenFrom s s5, takenFrom s6 s7, none, takenFrom s0 s9))))))

/-- Regex 1: (?:reset(?:s)?|available|try\s+again|retry)\s+at\s+(\d{1,2}):(\d{2})(?::(\d{2}))?\s*(am|pm)? with flag i, at one position. -/
def absResetAt (s : List Char) : Option (List Char × List Char × Option (List Char) × List Char) :=
  resetKeyword s (fun s1 =>
    plusP isWS s1 (fun s2 =>
      litS "at" s2 (fun s3 =>
        plusP isWS s3 (fun s4 => clockAt s s4))))

/-- Regex 2: \bat\s+(\d{1,2}):(\d{2})(?::(\d{2}))?\s*(am|pm)? with flag i, at
one position; prev is the character before this position, for \b. -/
def atTimeAt (prev : Option Char) (s : List Char) : Option (List Char × List Char × Option (List Char) × List Char) :=
  if prev.all (fun c => !isWordChar c) then
    litS "at" s (fun s1 => plusP isWS s1 (fun s2 => clockAt s s2))
  else none

/-- Subpattern (?:in(?:utes?)?)?, the optional suffix after the letter m. -/
def minSfx : Mch α := seqM (litS "in") (optM (seqM (litS "ute") (optM (litS "s"))))

/-- Subpattern h(?:ours?)? without its leading letter: (?:ours?)?. -/
def hourSfx : Mch α := seqM (litS "our") (optM (litS "s"))

/-- Regex 3: (\d+)\s*h(?:ours?)?\s+(\d+)\s*m(?:in(?:utes?)?)? with flag i, at
one position; yields (hours capture, minutes capture, whole match). -/
def combinedAt (s : List Char) : Option (List Char × List Char × List Char) :=
  plusP isDigit s (fun s1 =>
    starP isWS s1 (fun s2 =>
      chP (fun c => lcChar c == 'h') s2 (fun s3 =>
        optM hourSfx s3 (fun s4 =>
          plusP isWS s4 (fun s5 =>
            plusP isDigit s5 (fun s6 =>
              starP isWS s6 (fun s7 =>
                chP (fun c => lcChar c == 'm') s7 (fun s8 =>
                  optM minSfx s8 (fun s9 =>
                    some (takenFrom s s1, takenFrom s5 s6, takenFrom s s9))))))))))

/-- Subpattern (?:in|after|for), in source order. -/
def prepKw : Mch α := altM (litS "in") (altM (litS "after") (litS "for"))

/-- Subpattern (\d+(?:\.\d+)?), a decimal number for parseFloat. -/
def decNum : Mch α := seqM (plusP isDigit) (optM (seqM (chP (· == '.')) (plusP isDigit)))

/-- Regex 4: (?:in|after|for)\s+(\d+(?:\.\d+)?)\s*h(?:ours?)? with flag i, at
one position; yields (number capture, whole match). -/
def hoursOnlyAt (s : List Char) : Option (List Char × List Char) :=
  prepKw s (fun s1 =>
    plusP isWS s1 (fun s2 =>
      decNum s2 (fun s3 =>
        starP isWS s3 (fun s4 =>
          chP (fun c => lcChar c == 'h') s4 (fun s5 =>
            optM hourSfx s5 (fun s6 =>
              some (takenFrom s2 s3, takenFrom s s6)))))))

/-- Regex 5: (\d+(?:\.\d+)?)\s*hours? with flag i, at one position. -/
def bareHoursAt (s : List Char) : Option (List Char × List Char) :=
  decNum s (fun s1 =>
    starP isWS s1 (fun s2 =>
      litS "hour" s2 (fun s3 =>
        optM (litS "s") s3 (fun s4 =>
          some (takenFrom s s1, takenFrom s s4)))))

/-- Regex 6: (?:in|after|for)\s+(\d+(?:\.\d+)?)\s*m(?:in(?:utes?)?)? with
flag i, at one position. -/
def minutesOnlyAt (s : List Char) : Option (List Char × List Char) :=
  prepKw s (fun s1 =>
    plusP isWS s1 (fun s2 =>
      decNum s2 (fun s3 =>
        starP isWS s3 (fun s4 =>
          chP (fun c => lcChar c == 'm') s4 (fun s5 =>
            optM minSfx s5 (fun s6 =>
              some (takenFrom s2 s3, takenFrom s s6)))))))

/-- Subpattern (?:ec(?:onds?)?), the optional suffix after the letter s. -/
def secSfx : Mch α := seqM (litS "ec") (optM (seqM (litS "ond") (optM (litS "s"))))

/-- Regex 7: (?:in|after|for)\s+(\d+)\s*s(?:ec(?:onds?)?)? with flag i, at
one position. -/
def secondsOnlyAt (s : List Char) : Option (List Char × List Char) :=
  prepKw s (fun s1 =>
    plusP isWS s1 (fun s2 =>
      plusP isDigit s2 (fun s3 =>
        starP isWS s3 (fun s4 =>
          chP (fun c => lcChar c == 's') s4 (fun s5 =>
            optM secSfx s5 (fun s6 =>
              some (takenFrom s2 s3, takenFrom s s6)))))))

/-! ## Numeric helpers of the parser -/

/-- parseInt(s, 10) on a digit capture. -/
def digitsToNat (cs : List Char) : ℕ :=
  cs.foldl (fun a c => a * 10 + (c.toNat - 48)) 0

/-- parseFloat on a (\d+(?:\.\d+)?) capture. -/
def parseDecimal (cs : List Char) : ℚ :=
  let ip := cs.takeWhile isDigit
  match cs.dropWhile isDigit with
  | '.' :: fs => (digitsToNat ip : ℚ) + (digitsToNat fs : ℚ) / (10 : ℚ) ^ fs.length
  | _ => (digitsToNat ip : ℚ)

/-- Math.round: round half toward positive infinity, ⌊q + 1/2⌋. -/
def jsRound (q : ℚ) : ℤ := ⌊q + 1/2⌋

/-- addBuffer (util/time.ts): Math.round((hours + 5/60) * 10) / 10. -/
def addBuffer (hours : ℚ) : ℚ := (jsRound ((hours + 5/60) * 10) : ℚ) / 10

/-! ## RateLimitInfo and the parser (util/time.ts) -/

inductive Confidence
  | high
  | medium
  | low
deriving DecidableEq, Repr

/-- RateLimitInfo; Date instants are embedded as rational ms since the epoch
(relative resets are now + delayHours * 3600000 with fractional delayHours). -/
structure RateLimitInfo where
  delayHours : ℚ
  resetAt : Option ℚ
  rawMatch : List Char
  confidence : Confidence
deriving DecidableEq, Repr

/-- Length of the civil day of the model, in ms. -/
def msPerDay : ℤ := 86400000

/-- Midnight of the civil day containing now (what setHours starts from in
the fixed-offset model). -/
def dayStart (now : ℤ) : ℤ := now / msPerDay * msPerDay

/-- The AM/PM normalization of parseAbsoluteTime: pm adds 12 unless the hour
is already 12; am turns 12 into 0. -/
def normalizeHour (hour : ℕ) (ampm : Option (List Char)) : ℕ :=
  match ampm with
  | none => hour
  | some a =>
      let al := a.map lcChar
      let h1 := if al == "pm".toList && hour != 12 then hour + 12 else hour
      if al == "am".toList && h1 == 12 then 0 else h1

/-- Today's instant at the parsed hour:minute with seconds and ms zeroed:
resetAt.setHours(hour, minute, 0, 0) in the fixed-offset model. -/
def clockTarget (hourStr minuteStr : List Char) (ampm : Option (List Char)) (now : ℤ) : ℤ :=
  dayStart now + (normalizeHour (digitsToNat hourStr) ampm : ℤ) * 3600000
    + (digitsToNat minuteStr : ℤ) * 60000

/-- parseAbsoluteTime (util/time.ts): normalize the hour by AM/PM, build
today's instant at hour:minute:00.000, roll forward one calendar day when
that instant is past or exactly now, derive the buffered relative delay, and
take the first 80 characters of the whole input as rawMatch. The empty-string
guard mirrors the isNaN check (parseInt of an empty capture is NaN). -/
def parseAbsoluteTime (hourStr minuteStr : List Char) (ampm : Option (List Char))
    (rawText : List Char) (now : ℤ) : Option RateLimitInfo :=
  if hourStr.isEmpty || minuteStr.isEmpty then none
  else
    let target := clockTarget hourStr minuteStr ampm now
    let resetAt := if target ≤ now then target + msPerDay else target
    let rawHours : ℚ := ((resetAt - now : ℤ) : ℚ) / 3600000
    some
      { delayHours := addBuffer rawHours
        resetAt := some (resetAt : ℚ)
        rawMatch := rawText.take 80
        confidence := .high }

/-- The common return shape of the five relative-duration branches:
resetAt = new Date(Date.now() + delayHours * 3600000). -/
def relInfo (delayHours : ℚ) (m0 : List Char) (conf : Confidence) (now : ℤ) : RateLimitInfo :=
  { delayHours
    resetAt := some ((now : ℚ) + delayHours * 3600000)
    rawMatch := m0
    confidence := conf }

/-- Matcher 7 of the cascade: seconds only, parseInt / 3600, confidence medium. -/
def stageSecondsOnly (text : List Char) (now : ℤ) : Option RateLimitInfo :=
  match findFirst secondsOnlyAt text with
  | some (g1, m0) => some (relInfo (addBuffer ((digitsToNat g1 : ℚ) / 3600)) m0 .medium now)
  | none => none

/-- Matcher 6 of the cascade: minutes only, parseFloat / 60, confidence high. -/
def stageMinutesOnly (text : List Char) (now : ℤ) : Option RateLimitInfo :=
  match findFirst minutesOnlyAt text with
  | some (g1, m0) => some (relInfo (addBuffer (parseDecimal g1 / 60)) m0 .high now)
  | none => stageSecondsOnly text now

/-- Matcher 5 of the cascade: bare hours without a preposition, confidence medium. -/
def stageBareHours (text : List Char) (now : ℤ) : Option RateLimitInfo :=
  match findFirst bareHoursAt text with
  | some (g1, m0) => some (relInfo (addBuffer (parseDecimal g1)) m0 .medium now)
  | none => stageMinutesOnly text now

/-- Matcher 4 of the cascade: hours after in/after/for, confidence high. -/
def stageHoursOnly (text : List Char) (now : ℤ) : Option RateLimitInfo :=
  match findFirst hoursOnlyAt text with
  | some (g1, m0) => some (relInfo (addBuffer (parseDecimal g1)) m0 .high now)
  | none => stageBareHours text now

/-- Matcher 3 of the cascade: combined Xh Ym, parseInt h + parseInt m / 60,
confidence high. -/
def stageCombined (text : List Char) (now : ℤ) : Option RateLimitInfo :=
  match findFirst combinedAt text with
  | some (g1, g2, m0) =>
      some (relInfo (addBuffer ((digitsToNat g1 : ℚ) + (digitsToNat g2 : ℚ) / 60)) m0 .high now)
  | none => stageHoursOnly text now

/-- Matcher 2 of the cascade: standalone at HH:MM, same absolute-time
computation, confidence forced to medium. -/
def stageAtTime (text : List Char) (now : ℤ) : Option RateLimitInfo :=
  match scan atTimeAt none text with
  | some (hh, mm, ap, _) =>
      match (parseAbsoluteTime hh mm ap text now).map (fun i => { i with confidence := .medium }) with
      | some info => some info
      | none => stageCombined text now
  | none => stageCombined text now

/-- parseRateLimitMessage (util/time.ts): the ordered cascade; the first
matcher that succeeds wins. -/
def parseRateLimitMessage (text : List Char) (now : ℤ) : Option RateLimitInfo :=
  match findFirst absResetAt text with
  | some (hh, mm, ap, _) =>
      match parseAbsoluteTime hh mm ap text now with
      | some info => some info
      | none => stageAtTime text now
  | none => stageAtTime text now

/-- parseRateLimitDelay (util/time.ts): parseRateLimitMessage(text)?.delayHours. -/
def parseRateLimitDelay (text : List Char) (now : ℤ) : Option ℚ :=
  (parseRateLimitMessage text now).map (fun i => i.delayHours)

/-! ## Specification-side description of rawMatch

The spec sentence under audit says rawMatch is always the substring the
winning pattern matched. The definitions below state what rawMatch actually
is, per matcher: for the two absolute-clock matchers the first 80 characters
of the whole input, for the five relative-duration matchers the substring the
winning pattern matched (the match[0] component each matcher yields). -/

def specSecondsOnly (text : List Char) : Option (List Char) :=
  match findFirst secondsOnlyAt text with
  | some (_, m0) => some m0
  | none => none

def specMinutesOnly (text : List Char) : Option (List Char) :=
  match findFirst minutesOnlyAt text with
  | some (_, m0) => some m0
  | none => specSecondsOnly text

def specBareHours (text : List Char) : Option (List Char) :=
  match findFirst bareHoursAt text with
  | some (_, m0) => some m0
  | none => specMinutesOnly text

def specHoursOnly (text : List Char) : Option (List Char) :=
  match findFirst hoursOnlyAt text with
  | some (_, m0) => some m0
  | none => specBareHours text

def specCombined (text : List Char) : Option (List Char) :=
  match findFirst combinedAt text with
  | some (_, _, m0) => some m0
  | none => specHoursOnly text

def specAtTime (text : List Char) : Option (List Char) :=
  match scan atTimeAt none text with
  | some (hh, mm, _, _) =>
      if hh.isEmpty || mm.isEmpty then specCombined text else some (text.take 80)
  | none => specCombined text

/-- What rawMatch actually is, stage by stage of the cascade. -/
def rawMatchActual (text : List Char) : Option (List Char) :=
  match findFirst absResetAt text with
  | some (hh, mm, _, _) =>
      if hh.isEmpty || mm.isEmpty then specAtTime text else some (text.take 80)
  | none => specAtTime text

/-! ## Helper lemmas -/

/-- The second component of the processing fold accumulates exactly the
traversed items, whatever the delivery outcomes do to the store. -/
theorem foldl_pair_snd {α β : Type} (f : β → α → β) :
    ∀ (l : List α) (b : β) (acc : List α),
      (l.foldl (fun p x => (f p.1 x, p.2 ++ [x])) (b, acc)).2 = acc ++ l := by
  intro l
  induction l with
  | nil => intro b acc; simp
  | cons x xs ih => intro b acc; simp [List.foldl_cons, ih]

theorem markProcessed_twice (s : StoreState) (id : String) :
    markProcessed (markProcessed s id) id = markProcessed s id := by
  unfold markProcessed
  rw [List.map_map]
  refine List.map_congr_left ?_
  intro i _
  by_cases h : i.id == id <;> simp [Function.comp, h]

theorem markProcessed_length (s : StoreState) (id : String) :
    (markProcessed s id).length = s.length := by
  simp [markProcessed]

theorem markProcessed_absent (s : StoreState) (id : String)
    (h : ∀ i ∈ s, i.id ≠ id) : markProcessed s id = s := by
  unfold markProcessed
  conv_rhs => rw [← List.map_id s]
  refine List.map_congr_left ?_
  intro i hi
  simp [beq_iff_eq, h i hi]

theorem markProcessed_marks (s : StoreState) (id : String) :
    ∀ i ∈ markProcessed s id, i.id = id → i.processed = true := by
  intro i hi hid
  unfold markProcessed at hi
  obtain ⟨j, hj, rfl⟩ := List.mem_map.mp hi
  by_cases h : j.id == id
  · simp [h]
  · simp only [h, if_false] at hid ⊢
    exact absurd hid (by simpa [beq_iff_eq] using h)

/-! ## Claim theorems -/

/-- C6: isOverdue(t, now) is true exactly when t.getTime() <= now.getTime(),
and the exact-equality boundary is inclusive. -/
theorem isOverdue_boundary (t now : ℤ) :
    (isOverdue t now = true ↔ t ≤ now) ∧ isOverdue t t = true := by
  constructor
  · simp [isOverdue]
  · simp [isOverdue]

/-- C7: parseRateLimitDelay is a pure wrapper: it equals
parseRateLimitMessage(text)?.delayHours, and is undefined exactly when the
full parser is. -/
theorem parseRateLimitDelay_wraps (text : List Char) (now : ℤ) :
    parseRateLimitDelay text now
        = (parseRateLimitMessage text now).map (fun i => i.delayHours) ∧
    (parseRateLimitDelay text now = none ↔ parseRateLimitMessage text now = none) := by
  refine ⟨rfl, ?_⟩
  unfold parseRateLimitDelay
  cases parseRateLimitMessage text now <;> simp

/-- C8: within one process() tick every due item has its delivery attempted,
whatever the (possibly failing) outcomes of earlier items are. -/
theorem process_attempts_every_due (s : StoreState) (now : ℤ) (outcome : QueueItem → Bool) :
    (process s now outcome).attempted = dueItems s now := by
  unfold process
  by_cases h : (dueItems s now).length = 0
  · simp [h, List.length_eq_zero.mp h]
  · simp [h, foldl_pair_snd (deliverStep outcome)]

/-- A one-item store whose sole pending item is due at the epoch. -/
def c1Item : QueueItem :=
  { id := "a", createdAt := 0, notBefore := 0, promptText := "p",
    workspaceFolder := "", processed := false }

/-- C1: process() computes the due subset and attempts each in order, but the
number it returns is due.length, not the number of successful deliveries: at
a store with one due item whose delivery throws, it returns 1 while 0
deliveries succeeded, and in general the returned number always equals the
size of the due subset regardless of outcomes. -/
theorem process_returned_ignores_failures :
    (process [c1Item] 0 (fun _ => false)).returned = 1 ∧
    succeededCount [c1Item] 0 (fun _ => false) = 0 ∧
    ∀ (s : StoreState) (now : ℤ) (outcome : QueueItem → Bool),
      (process s now outcome).returned = (dueItems s now).length := by
  refine ⟨by decide, by decide, ?_⟩
  intro s now outcome
  unfold process
  by_cases h : (dueItems s now).length = 0 <;> simp [h]

/-- C9: markProcessed(id) is idempotent, preserves the item count, is a no-op
when no item has the id, and leaves every matching item with processed = true. -/
theorem markProcessed_idem (s : StoreState) (id : String) :
    markProcessed (markProcessed s id) id = markProcessed s id ∧
    (markProcessed s id).length = s.length ∧
    ((∀ i ∈ s, i.id ≠ id) → markProcessed s id = s) ∧
    (∀ i ∈ markProcessed s id, i.id = id → i.processed = true) :=
  ⟨markProcessed_twice s id, markProcessed_length s id,
    markProcessed_absent s id, markProcessed_marks s id⟩

/-- Concrete pending item for the markProcessed witness. -/
def w9a : QueueItem :=
  { id := "a", createdAt := 0, notBefore := 0, promptText := "p",
    workspaceFolder := "", processed := false }

/-- Witness for C9 at a concrete store, discharging the absent-id hypothesis. -/
theorem markProcessed_idem_witness :
    markProcessed (markProcessed [w9a] "a") "a" = markProcessed [w9a] "a" ∧
    markProcessed [w9a] "zz" = [w9a] :=
  ⟨(markProcessed_idem [w9a] "a").1,
    (markProcessed_idem [w9a] "zz").2.2.1 (by decide)⟩

/-- C10: forceDeliver(id) is a no-op when the store has no pending item with
that id (absent, or present but already processed): no delivery is attempted
and the store contents are unchanged. -/
theorem forceDeliver_absent_noop (s : StoreState) (id : String) (outcome : QueueItem → Bool)
    (h : ∀ i ∈ s, i.id = id → i.processed = true) :
    forceDeliver s id outcome = (s, none) := by
  unfold forceDeliver
  have hf : s.find? (fun i => i.id == id && !i.processed) = none := by
    rw [List.find?_eq_none]
    intro i hi
    simp only [Bool.and_eq_true, beq_iff_eq, Bool.not_eq_true', not_and]
    intro hid
    simp [h i hi hid]
  rw [hf]

/-- rawMatch of an absolute-time parse: the guard decides, and on success it
is the first 80 characters of the whole input. -/
theorem parseAbsoluteTime_rawMatch (hh mm : List Char) (ap : Option (List Char))
    (text : List Char) (now : ℤ) :
    (parseAbsoluteTime hh mm ap text now).map (fun i => i.rawMatch) =
      if hh.isEmpty || mm.isEmpty then none else some (text.take 80) := by
  unfold parseAbsoluteTime
  by_cases h : (hh.isEmpty || mm.isEmpty) = true <;> simp [h]

theorem stageSeconds_raw (text : List Char) (now : ℤ) :
    (stageSecondsOnly text now).map (fun i => i.rawMatch) = specSecondsOnly text := by
  unfold stageSecondsOnly specSecondsOnly
  rcases h : findFirst secondsOnlyAt text with _ | ⟨g1, m0⟩ <;> simp [h, relInfo]

theorem stageMinutes_raw (text : List Char) (now : ℤ) :
    (stageMinutesOnly text now).map (fun i => i.rawMatch) = specMinutesOnly text := by
  unfold stageMinutesOnly specMinutesOnly
  rcases h : findFirst minutesOnlyAt text with _ | ⟨g1, m0⟩ <;>
    simp [h, relInfo, stageSeconds_raw]

theorem stageBare_raw (text : List Char) (now : ℤ) :
    (stageBareHours text now).map (fun i => i.rawMatch) = specBareHours text := by
  unfold stageBareHours specBareHours
  rcases h : findFirst bareHoursAt text with _ | ⟨g1, m0⟩ <;>
    simp [h, relInfo, stageMinutes_raw]

theorem stageHours_raw (text : List Char) (now : ℤ) :
    (stageHoursOnly text now).map (fun i => i.rawMatch) = specHoursOnly text := by
  unfold stageHoursOnly specHoursOnly
  rcases h : findFirst hoursOnlyAt text with _ | ⟨g1, m0⟩ <;>
    simp [h, relInfo, stageBare_raw]

theorem stageCombined_raw (text : List Char) (now : ℤ) :
    (stageCombined text now).map (fun i => i.rawMatch) = specCombined text := by
  unfold stageCombined specCombined
  rcases h : findFirst combinedAt text with _ | ⟨g1, g2, m0⟩ <;>
    simp [h, relInfo, stageHours_raw]

theorem stageAtTime_raw (text : List Char) (now : ℤ) :
    (stageAtTime text now).map (fun i => i.rawMatch) = specAtTime text := by
  unfold stageAtTime specAtTime
  rcases h : scan atTimeAt none text with _ | ⟨hh, mm, ap, sp⟩
  · simp [h, stageCombined_raw]
  · by_cases hg : (hh.isEmpty || mm.isEmpty) = true
    · simp [h, hg, parseAbsoluteTime, stageCombined_raw]
    · simp [h, hg, parseAbsoluteTime]

/-- The input of the spec scenario for the absolute-clock matcher. -/
def c2text : List Char := "Your limit will reset at 2:30 PM".toList

/-- C2 counterexample: on this input the winning (first) matcher matched the
substring reset at 2:30 PM, but rawMatch is the whole input (its first 80
characters), which differs from the matched substring. -/
theorem rawMatch_absolute_counterex :
    findFirst absResetAt c2text
        = some (['2'], ['3','0'], some ['P','M'], "reset at 2:30 PM".toList) ∧
    (parseRateLimitMessage c2text 0).map (fun i => i.rawMatch) = some c2text ∧
    c2text ≠ "reset at 2:30 PM".toList :=
  ⟨by decide, by decide, by decide⟩

/-- C2 amended: rawMatch is the matched substring for the five
relative-duration matchers, but for the two absolute-clock matchers it is the
first 80 characters of the whole input text. -/
theorem rawMatch_cascade_actual (text : List Char) (now : ℤ) :
    (parseRateLimitMessage text now).map (fun i => i.rawMatch) = rawMatchActual text := by
  unfold parseRateLimitMessage rawMatchActual
  rcases h : findFirst absResetAt text with _ | ⟨hh, mm, ap, sp⟩
  · simp [h, stageAtTime_raw]
  · by_cases hg : (hh.isEmpty || mm.isEmpty) = true
    · simp [h, hg, parseAbsoluteTime, stageAtTime_raw]
    · simp [h, hg, parseAbsoluteTime]

/-- The spec example input for the bare-hours fallback. -/
def c3textFor : List Char := "rate limited for 5 hours".toList

/-- A genuinely preposition-free variant of the same input. -/
def c3textBare : List Char := "rate limited 5 hours".toList

/-- C3 counterexample: on rate limited for 5 hours the preposition-anchored
hours matcher itself matches (for is in its in|after|for group), the winning
match is for 5 hours, and confidence is high, not medium. -/
theorem forPreposition_counterex :
    findFirst hoursOnlyAt c3textFor = some (['5'], "for 5 hours".toList) ∧
    (parseRateLimitMessage c3textFor 0).map (fun i => (i.confidence, i.rawMatch))
        = some (.high, "for 5 hours".toList) ∧
    (parseRateLimitMessage c3textFor 0).map (fun i => i.confidence) ≠ some .medium :=
  ⟨by decide, by decide, by decide⟩

/-- C3 amended: an hours count introduced by for is taken by the
preposition-anchored hours matcher at confidence high; the loose bare-hours
fallback at confidence medium applies only when no in/after/for precedes the
number, as in rate limited 5 hours. -/
theorem forPreposition_amended :
    (parseRateLimitMessage c3textFor 0).map (fun i => (i.confidence, i.rawMatch))
        = some (.high, "for 5 hours".toList) ∧
    findFirst hoursOnlyAt c3textBare = none ∧
    (parseRateLimitMessage c3textBare 0).map (fun i => (i.confidence, i.rawMatch))
        = some (.medium, "5 hours".toList) :=
  ⟨by decide, by decide, by decide⟩

/-- The buffered delay of 4h 30m: 4.5 h + 5 min, rounded to one decimal. -/
theorem addBuffer_4h30m : addBuffer ((4:ℚ) + 30/60) = 23/5 := by
  unfold addBuffer jsRound
  have h1 : ((4:ℚ) + 30/60 + 5/60) * 10 + 1/2 = 278/6 := by norm_num
  rw [h1]
  have h2 : ⌊(278/6 : ℚ)⌋ = 46 := by
    rw [Int.floor_eq_iff]
    norm_num
  rw [h2]
  norm_num

/-- The spec scenario input for the combined relative matcher. -/
def c4text : List Char := "Rate limit exceeded. Try again in 4h 30m.".toList

/-- C4: on Rate limit exceeded. Try again in 4h 30m. the parser returns
delayHours strictly above 4.5 and at most 5 (namely 4.6), with confidence
high, at every current time. -/
theorem tryAgain_4h30m_delay (now : ℤ) :
    ∃ info, parseRateLimitMessage c4text now = some info ∧
      (9/2 : ℚ) < info.delayHours ∧ info.delayHours ≤ 5 ∧ info.confidence = .high := by
  refine ⟨relInfo (addBuffer ((4:ℚ) + 30/60)) "4h 30m".toList .high now, rfl, ?_, ?_, rfl⟩
  · simp only [relInfo, addBuffer_4h30m]
    norm_num
  · simp only [relInfo, addBuffer_4h30m]
    norm_num

/-- C5: in the absolute-clock cases, when today at the parsed hour:minute
(seconds and ms zero) is at or before now, resetAt is exactly that clock time
rolled forward one calendar day and never more; when it is strictly in the
future, resetAt is today's instant unchanged; resetAt is always strictly in
the future. -/
theorem parseAbsoluteTime_rollover (hourStr minuteStr : List Char) (ampm : Option (List Char))
    (text : List Char) (now : ℤ) (h1 : hourStr ≠ []) (h2 : minuteStr ≠ []) :
    ∃ r : ℤ, (parseAbsoluteTime hourStr minuteStr ampm text now).map (fun i => i.resetAt)
        = some (some (r : ℚ)) ∧
      (clockTarget hourStr minuteStr ampm now ≤ now →
        r = clockTarget hourStr minuteStr ampm now + msPerDay) ∧
      (now < clockTarget hourStr minuteStr ampm now →
        r = clockTarget hourStr minuteStr ampm now) ∧
      now < r := by
  have hg : (hourStr.isEmpty || minuteStr.isEmpty) = false := by
    cases hourStr with
    | nil => exact absurd rfl h1
    | cons a l =>
      cases minuteStr with
      | nil => exact absurd rfl h2
      | cons b m => rfl
  have hlow : dayStart now ≤ clockTarget hourStr minuteStr ampm now := by
    have ha : (0:ℤ) ≤ (normalizeHour (digitsToNat hourStr) ampm : ℤ) := Int.natCast_nonneg _
    have hb : (0:ℤ) ≤ (digitsToNat minuteStr : ℤ) := Int.natCast_nonneg _
    unfold clockTarget
    omega
  have hup : now < dayStart now + msPerDay := by
    unfold dayStart msPerDay
    omega
  by_cases hle : clockTarget hourStr minuteStr ampm now ≤ now
  · refine ⟨clockTarget hourStr minuteStr ampm now + msPerDay, ?_, fun _ => rfl,
      fun hlt => absurd hle (not_le.mpr hlt), by omega⟩
    simp [parseAbsoluteTime, hg, hle]
  · refine ⟨clockTarget hourStr minuteStr ampm now, ?_, fun hc => absurd hc hle,
      fun _ => rfl, lt_of_not_le hle⟩
    simp [parseAbsoluteTime, hg, hle]

/-- Witness for C5 at 2:30 PM parsed at the epoch. -/
theorem parseAbsoluteTime_rollover_witness :
    (['2'] : List Char) ≠ [] ∧ (['3','0'] : List Char) ≠ [] ∧
    ∃ r : ℤ, (parseAbsoluteTime ['2'] ['3','0'] (some ['P','M']) [] 0).map (fun i => i.resetAt)
        = some (some (r : ℚ)) ∧
      (clockTarget ['2'] ['3','0'] (some ['P','M']) 0 ≤ 0 →
        r = clockTarget ['2'] ['3','0'] (some ['P','M']) 0 + msPerDay) ∧
      ((0:ℤ) < clockTarget ['2'] ['3','0'] (some ['P','M']) 0 →
        r = clockTarget ['2'] ['3','0'] (some ['P','M']) 0) ∧
      (0:ℤ) < r :=
  ⟨by decide, by decide,
    parseAbsoluteTime_rollover ['2'] ['3','0'] (some ['P','M']) [] 0 (by decide) (by decide)⟩

/-- Concrete already-processed item for the forceDeliver witness. -/
def w10a : QueueItem :=
  { id := "a", createdAt := 0, notBefore := 0, promptText := "p",
    workspaceFolder := "", processed := true }

/-- Witness for C10 at a concrete store whose only item with the id is
already processed. -/
theorem forceDeliver_absent_noop_witness :
    forceDeliver [w10a] "a" (fun _ => true) = ([w10a], none) :=
  forceDeliver_absent_noop [w10a] "a" (fun _ => true) (by decide)

end PromptQueue
